import Mathlib

/-!
Verification of the skill scaffolding / validation / packaging utilities
(`scripts/init_skill.py` and `scripts/package_skill.py`).

Python strings are modelled as `List Char` where character-level reasoning is
needed, and as Lean `String` for the human-readable report messages.  The
character-class functions (`str.isalnum`, `str.islower`, `str.title`,
`str.strip`) are modelled for ASCII input, which covers every instantiation
appearing in the claims; Lean's `Char.isAlpha`, `Char.isDigit`, `Char.isUpper`,
`Char.isLower` are themselves ASCII-only, matching that restriction.
-/

/-- Model of Python `str.isalnum` per character, for ASCII characters
(`A-Z`, `a-z`, `0-9`).  Non-ASCII Unicode alphanumerics accepted by CPython
are outside this model. -/
def pyIsAlnumChar (c : Char) : Bool :=
  c.isAlpha || c.isDigit

/-- Model of Python `str.islower` for ASCII strings: true iff all cased
characters are lowercase and there is at least one cased character (for ASCII
the cased characters are exactly the letters). -/
def pyIsLower (s : List Char) : Bool :=
  s.any (fun c => c.isAlpha) && s.all (fun c => !c.isUpper)

/-- Model of Python `str.strip` (both-ends whitespace trim) for ASCII
whitespace. -/
def pyStrip (s : List Char) : List Char :=
  ((s.dropWhile Char.isWhitespace).reverse.dropWhile Char.isWhitespace).reverse

/-- Model of Python's substring test `pat in s`. -/
def listContainsSub (pat : List Char) : List Char → Bool
  | [] => pat.isEmpty
  | c :: rest => pat.isPrefixOf (c :: rest) || listContainsSub pat rest

/-- Model of Python `str.lower` for ASCII strings, at the character-list
level. -/
def pyLowerChars (s : String) : List Char :=
  s.toList.map Char.toLower

/-- Substring test on `String`, used where the source applies `in` to whole
Python strings (for example `'example' in f.name.lower()`). -/
def strContainsSub (pat s : String) : Bool :=
  listContainsSub pat.toList s.toList

/-- Model of Python `str.title` restricted to ASCII: each maximal run of
letters is capitalised at its first character, the rest lowercased.  The
boolean state is `true` when the previous character was a letter. -/
def pyTitleAux : Bool → List Char → List Char
  | _, [] => []
  | prevAlpha, c :: rest =>
    if c.isAlpha then
      (if prevAlpha then c.toLower else c.toUpper) :: pyTitleAux true rest
    else
      c :: pyTitleAux false rest

/-- Model of Python `str.title` for ASCII strings. -/
def pyTitle (s : List Char) : List Char :=
  pyTitleAux false s

/-- Values produced by `yaml.safe_load`, restricted to the constructors the
validator can encounter: strings, integers, booleans, null, sequences and
mappings. -/
inductive YVal where
  | str (s : String)
  | int (n : Int)
  | bool (b : Bool)
  | null
  | ylist (l : List YVal)
  | ydict (d : List (String × YVal))

/-- Python truthiness (`bool(v)`) for the modelled YAML values. -/
def YVal.truthy : YVal → Bool
  | .str s => !s.isEmpty
  | .int n => n != 0
  | .bool b => b
  | .null => false
  | .ylist l => !l.isEmpty
  | .ydict d => !d.isEmpty

/-- Exceptions that can escape the Python validator: `ValidationError` (the
custom class raised on fatal structural problems, caught in `validate`) and
the builtin `AttributeError` / `TypeError` that the description checks can
raise on non-string values (never caught). -/
inductive PyExn where
  | validationError (msg : String)
  | attributeError (msg : String)
  | typeError (msg : String)

/-- Model of `description.strip()`: only `str` has a `strip` attribute,
every other value raises `AttributeError`. -/
def YVal.pyStripped : YVal → Except PyExn (List Char)
  | .str s => .ok (pyStrip s.toList)
  | _ => .error (.attributeError "object has no attribute strip")

/-- Model of Python `'TODO' in v`: substring test on strings, element
equality on lists, key membership on dicts; `TypeError` on non-iterable
values (ints, booleans, None). -/
def YVal.pyContainsTODO : YVal → Except PyExn Bool
  | .str s => .ok (listContainsSub "TODO".toList s.toList)
  | .ylist l => .ok (l.any fun v => match v with | .str t => t == "TODO" | _ => false)
  | .ydict d => .ok (d.any fun kv => kv.1 == "TODO")
  | _ => .error (.typeError "argument of type is not iterable")

/-- Python `v == s` between a YAML value and a Python string: only a string
with equal contents compares equal. -/
def YVal.pyEqStr : YVal → String → Bool
  | .str t, s => t == s
  | _, _ => false

/-- Model of `str(v)` as used when a YAML value is interpolated into a
warning message; container displays are abbreviated (wording of the reports
is not load-bearing). -/
def YVal.pyStr : YVal → String
  | .str s => s
  | .int n => toString n
  | .bool b => if b then "True" else "False"
  | .null => "None"
  | .ylist _ => "<list>"
  | .ydict _ => "<dict>"

/-- Lookup of `fm[k]` in a parsed frontmatter mapping (first matching key;
mappings produced by `yaml.safe_load` have distinct keys). -/
def fmGet (fm : List (String × YVal)) (k : String) : Option YVal :=
  match fm.find? (fun kv => kv.1 == k) with
  | some kv => some kv.2
  | none => none

/-- Model of `k in fm` for a parsed frontmatter mapping. -/
def fmHasKey (fm : List (String × YVal)) (k : String) : Bool :=
  (fmGet fm k).isSome

/-- One file found under a resource directory by `rglob`: its basename
(`f.name`) and its path relative to the skill root
(`f.relative_to(self.skill_path)`), as used in the warning text. -/
structure RFile where
  name : String
  relPath : String

/-- The `SKILL.md` document, embedded after the purely mechanical steps of
`_validate_yaml_frontmatter`: whether the raw text starts with the `---`
marker, whether `content.split('---', 2)` produced at least three parts, the
outcome of `yaml.safe_load` on the stripped middle part, and the raw third
part (the body before `.strip()`). -/
structure SkillMdDoc where
  startsWithMarker : Bool
  hasClosingMarker : Bool
  yaml : Except String YVal
  body : List Char

/-- A skill directory as observed by the validator: existence flags for
`skill_path`, its basename, the optional `SKILL.md` document, and the file
listings of the three conventional resource directories (`none` when the
directory does not exist or is not a directory). -/
structure SkillDir where
  pathStr : String
  pathExists : Bool
  pathIsDir : Bool
  name : List Char
  skillMd : Option SkillMdDoc
  scripts : Option (List RFile)
  references : Option (List RFile)
  assets : Option (List RFile)

/-- The mutable state of a `SkillValidator`: the two accumulated report
lists. -/
structure VState where
  errors : List String
  warnings : List String

/-- Basename of the skill directory as a `String`, for message
interpolation. -/
def SkillDir.nameStr (s : SkillDir) : String :=
  String.mk s.name

def msgDirMissing (p : String) : String :=
  "Skill directory does not exist: " ++ p

def msgNotDir (p : String) : String :=
  "Path is not a directory: " ++ p

def msgNoSkillMd : String :=
  "SKILL.md file is required but not found"

def msgNoOpeningMarker : String :=
  "SKILL.md must start with YAML frontmatter (---)"

def msgNoClosingMarker : String :=
  "SKILL.md must have closing --- for frontmatter"

def msgInvalidYaml (e : String) : String :=
  "Invalid YAML frontmatter: " ++ e

def msgNotDict : String :=
  "Frontmatter must be a YAML dictionary"

def msgNoNameField : String :=
  "Frontmatter must include \x27name\x27 field"

def msgNoDescField : String :=
  "Frontmatter must include \x27description\x27 field"

def msgNameMismatch (v : YVal) (dirName : String) : String :=
  "Frontmatter name \x27" ++ v.pyStr ++ "\x27 doesn\x27t match directory name \x27"
    ++ dirName ++ "\x27"

def msgDescTooShort : String :=
  "Description is too short (min 20 characters). Be comprehensive about what the skill does and when to use it."

def msgDescTODO : String :=
  "Description contains TODO - must be completed"

def msgExtraFields (ks : List String) : String :=
  "Frontmatter contains extra fields (will be ignored): " ++ String.intercalate ", " ks

def msgBodyEmpty : String :=
  "SKILL.md body is empty"

def msgBodyTODO : String :=
  "SKILL.md contains TODO items - consider completing them"

def msgBodyShort : String :=
  "SKILL.md body is very short - consider adding more guidance"

def msgBodyLong : String :=
  "SKILL.md body is very long (>5000 words) - consider moving content to references/"

def msgNoResources : String :=
  "No bundled resources found (scripts, references, or assets). Consider if this skill would benefit from them."

def msgExampleFile (rel : String) : String :=
  "Found example file that should be removed or renamed: " ++ rel

def msgNameNotLower (n : String) : String :=
  "Skill name \x27" ++ n ++ "\x27 should be lowercase"

def msgNameUnderscore (n : String) : String :=
  "Skill name \x27" ++ n ++ "\x27 should use hyphens, not underscores"

def msgNameSpace (n : String) : String :=
  "Skill name \x27" ++ n ++ "\x27 cannot contain spaces"

/-- Check 1, `_validate_directory_exists`: raise if the path is missing or
is not a directory. -/
def _validate_directory_exists (s : SkillDir) (st : VState) :
    Except (PyExn × VState) VState :=
  if !s.pathExists then
    .error (.validationError (msgDirMissing s.pathStr), st)
  else if !s.pathIsDir then
    .error (.validationError (msgNotDir s.pathStr), st)
  else
    .ok st

/-- Check 2, `_validate_skill_md_exists`: raise if `SKILL.md` is absent. -/
def _validate_skill_md_exists (s : SkillDir) (st : VState) :
    Except (PyExn × VState) VState :=
  match s.skillMd with
  | none => .error (.validationError msgNoSkillMd, st)
  | some _ => .ok st

/-- The two description quality checks of `_validate_yaml_frontmatter`
(lines 97-105): `if not description or len(description.strip()) < 20` and
`if 'TODO' in description`.  Non-string values can raise `AttributeError`
(from `.strip()`) or `TypeError` (from `in`). -/
def descriptionChecks (desc : YVal) (st : VState) :
    Except (PyExn × VState) VState := do
  let tooShort ←
    if !desc.truthy then
      pure true
    else
      match desc.pyStripped with
      | .ok t => pure (decide (t.length < 20))
      | .error e => throw (e, st)
  let st := if tooShort then { st with errors := st.errors ++ [msgDescTooShort] } else st
  let hasTodo ←
    match desc.pyContainsTODO with
    | .ok b => pure b
    | .error e => throw (e, st)
  let st := if hasTodo then { st with errors := st.errors ++ [msgDescTODO] } else st
  pure st

/-- Check 3, `_validate_yaml_frontmatter`: marker checks, YAML parse, the
required `name` / `description` fields (raising on failure), the
name-mismatch warning, the description quality checks and the extra-fields
warning. -/
def _validate_yaml_frontmatter (s : SkillDir) (st : VState) :
    Except (PyExn × VState) VState := do
  match s.skillMd with
  | none => pure st -- unreachable: check 2 has already raised when SKILL.md is absent
  | some d =>
    if !d.startsWithMarker then
      throw (.validationError msgNoOpeningMarker, st)
    else if !d.hasClosingMarker then
      throw (.validationError msgNoClosingMarker, st)
    else
      match d.yaml with
      | .error e => throw (.validationError (msgInvalidYaml e), st)
      | .ok (.ydict fm) =>
          if !fmHasKey fm "name" then
            throw (.validationError msgNoNameField, st)
          else if !fmHasKey fm "description" then
            throw (.validationError msgNoDescField, st)
          else
            match fmGet fm "name", fmGet fm "description" with
            | some nameVal, some desc =>
              let st :=
                if !nameVal.pyEqStr s.nameStr then
                  { st with warnings := st.warnings ++ [msgNameMismatch nameVal s.nameStr] }
                else st
              let st ← descriptionChecks desc st
              let extra := (fm.map Prod.fst).filter
                (fun k => !(k == "name") && !(k == "description"))
              let st :=
                if !extra.isEmpty then
                  { st with warnings := st.warnings ++ [msgExtraFields extra] }
                else st
              pure st
            | _, _ => pure st
      | .ok _ => throw (.validationError msgNotDict, st)

/-- Check 4, `_validate_skill_body`: runs only when the closing marker
exists; an empty (stripped) body is an error and skips the remaining body
warnings (`return`), otherwise the TODO / length warnings accumulate. -/
def _validate_skill_body (s : SkillDir) (st : VState) :
    Except (PyExn × VState) VState :=
  match s.skillMd with
  | none => .ok st -- unreachable: check 2 has already raised when SKILL.md is absent
  | some d =>
    if !d.hasClosingMarker then
      .ok st
    else
      let body := pyStrip d.body
      if body.isEmpty then
        .ok { st with errors := st.errors ++ [msgBodyEmpty] }
      else
        let st :=
          if listContainsSub "TODO".toList body then
            { st with warnings := st.warnings ++ [msgBodyTODO] }
          else st
        let st :=
          if body.length < 100 then
            { st with warnings := st.warnings ++ [msgBodyShort] }
          else st
        let st :=
          if body.length > 25000 then
            { st with warnings := st.warnings ++ [msgBodyLong] }
          else st
        .ok st

/-- Files of one resource directory after the `.gitkeep` filter (an absent
directory contributes no files, like one whose filtered listing is empty). -/
def resourceDirFiles (o : Option (List RFile)) : List RFile :=
  match o with
  | none => []
  | some fl => fl.filter (fun f => !(f.name == ".gitkeep"))

/-- The warnings produced by `_validate_resources`, in emission order: one
per remaining file whose lowercased name contains `example`, walking
`scripts`, `references`, `assets` in that order, then the final
no-resources warning when none of the three directories holds a real
file. -/
def resourceWarnings (s : SkillDir) : List String :=
  let dirs := [resourceDirFiles s.scripts, resourceDirFiles s.references,
    resourceDirFiles s.assets]
  let exampleWarns := (dirs.map (fun files =>
    files.filterMap (fun f =>
      if listContainsSub "example".toList (pyLowerChars f.name) then
        some (msgExampleFile f.relPath)
      else none))).flatten
  let hasResources := dirs.any (fun files => !files.isEmpty)
  exampleWarns ++ (if hasResources then [] else [msgNoResources])

/-- Check 5, `_validate_resources`: only ever appends warnings. -/
def _validate_resources (s : SkillDir) (st : VState) :
    Except (PyExn × VState) VState :=
  .ok { st with warnings := st.warnings ++ resourceWarnings s }

/-- Check 6, `_validate_naming_conventions`: the lowercase and underscore
warnings and the space error, all accumulated without raising. -/
def _validate_naming_conventions (s : SkillDir) (st : VState) :
    Except (PyExn × VState) VState :=
  let st :=
    if !pyIsLower s.name then
      { st with warnings := st.warnings ++ [msgNameNotLower s.nameStr] }
    else st
  let st :=
    if s.name.contains '_' then
      { st with warnings := st.warnings ++ [msgNameUnderscore s.nameStr] }
    else st
  let st :=
    if s.name.contains ' ' then
      { st with errors := st.errors ++ [msgNameSpace s.nameStr] }
    else st
  .ok st

/-- The `try` body of `SkillValidator.validate`: the six checks in source
order, threading the accumulated state, propagating any raised exception
together with the state at the moment of the raise. -/
def runChecks (s : SkillDir) : Except (PyExn × VState) VState :=
  (_validate_directory_exists s { errors := [], warnings := [] }).bind (fun st =>
  (_validate_skill_md_exists s st).bind (fun st =>
  (_validate_yaml_frontmatter s st).bind (fun st =>
  (_validate_skill_body s st).bind (fun st =>
  (_validate_resources s st).bind (fun st =>
  _validate_naming_conventions s st)))))

/-- `SkillValidator.validate`: runs the checks, catches `ValidationError`
by appending its message to the error list, and returns
`(len(errors) == 0, errors, warnings)`.  Exceptions other than
`ValidationError` (the `AttributeError` / `TypeError` of the description
checks) escape uncaught, modelled by the `.error` result. -/
def SkillValidator.validate (s : SkillDir) :
    Except PyExn (Bool × List String × List String) :=
  match runChecks s with
  | .ok st => .ok (st.errors.isEmpty, st.errors, st.warnings)
  | .error (.validationError m, st) =>
    let errs := st.errors ++ [m]
    .ok (errs.isEmpty, errs, st.warnings)
  | .error (.attributeError m, _) => .error (.attributeError m)
  | .error (.typeError m, _) => .error (.typeError m)

/-- The separator of the frontmatter markers, `'---'`. -/
def dashes : List Char := ['-', '-', '-']

/-- First occurrence split, the elementary step of Python `str.split(sep, n)`
for a non-empty separator: scans left to right and cuts at the first
occurrence of `sep`. -/
def splitFirstAt (sep : List Char) : List Char → Option (List Char × List Char)
  | [] => none
  | c :: rest =>
    if sep.isPrefixOf (c :: rest) then
      some ([], (c :: rest).drop sep.length)
    else
      match splitFirstAt sep rest with
      | some (a, b) => some (c :: a, b)
      | none => none

/-- Model of Python `s.split(sep, maxsplit)` for a non-empty separator:
at most `maxsplit` cuts, scanning left to right, non-overlapping. -/
def pySplitList (sep : List Char) : Nat → List Char → List (List Char)
  | 0, s => [s]
  | n + 1, s =>
    match splitFirstAt sep s with
    | none => [s]
    | some (a, b) => a :: pySplitList sep n b

/-- The placeholder description written by `SKILL_TEMPLATE` into the
`description:` header line. -/
def initDescription : String :=
  "TODO - Describe what this skill does and when to use it. This is the primary triggering mechanism - be comprehensive and clear about all use cases."

/-- The name-independent tail of `SKILL_TEMPLATE` following the interpolated
`# {skill_title}` heading, verbatim. -/
def templateBodyTail : String :=
  "\n\n## Overview\n\nTODO - Brief overview of what this skill provides\n\n## When to Use This Skill\n\nTODO - Specific scenarios and triggers for this skill (This is critical for skill activation)\n\n## Workflow\n\nTODO - Step-by-step instructions for using this skill\n\n### Step 1: TODO\n\nTODO - Detailed instructions\n\n### Step 2: TODO\n\nTODO - Detailed instructions\n\n## Examples\n\nTODO - Concrete examples of skill usage\n\n## Resources\n\n- **Scripts**: See `scripts/` directory for automation tools\n- **References**: See `references/` directory for detailed documentation\n- **Assets**: See `assets/` directory for templates and resources\n\n## Common Pitfalls\n\nTODO - Things to watch out for\n\n## Best Practices\n\nTODO - Recommended approaches\n"

/-- The title interpolated by `create_skill_structure`:
`skill_name.replace('-', ' ').title()`. -/
def skillTitle (name : List Char) : List Char :=
  pyTitle (name.map (fun c => if c == '-' then ' ' else c))

/-- The text between the two `---` markers of the rendered template:
the `name:` and `description:` header lines (this is `parts[1]` of
`content.split('---', 2)` whenever the name itself contains no `---`). -/
def initHeaderChars (name : List Char) : List Char :=
  "\nname: ".toList ++ name ++ "\ndescription: ".toList ++ initDescription.toList
    ++ ['\n']

/-- The text after the closing `---` marker of the rendered template
(`parts[2]` under the same condition). -/
def initRestChars (name : List Char) : List Char :=
  "\n\n# ".toList ++ skillTitle name ++ templateBodyTail.toList

/-- `SKILL_TEMPLATE.format(skill_name=.., skill_title=..)`, as the character
sequence written to `SKILL.md` by `create_skill_structure`. -/
def skillTemplateChars (name : List Char) : List Char :=
  dashes ++ initHeaderChars name ++ dashes ++ initRestChars name

/-- The `SKILL.md` document of a freshly initialized skill, as the validator
will observe it: the marker fields and the body are computed from the
rendered template text by the same mechanical steps the validator performs
(`startswith('---')`, `split('---', 2)`).  The `yaml.safe_load` step is not
re-implemented: on the header text `name: <name>` / `description: <initDescription>`
(the shape of `parts[1]` whenever `<name>` contains no `---`) PyYAML yields a
two-key mapping whose `description` value is the literal placeholder string;
the scalar resolution of `<name>` (a plain string for ordinary names, an
int for all-digit names, etc.) is supplied as the parameter `nameVal`. -/
def initSkillMdDoc (name : List Char) (nameVal : YVal) : SkillMdDoc :=
  let content := skillTemplateChars name
  let parts := pySplitList dashes 2 content
  { startsWithMarker := dashes.isPrefixOf content
    hasClosingMarker := decide (3 ≤ parts.length)
    yaml := .ok (.ydict [("name", nameVal), ("description", .str initDescription)])
    body := parts.getD 2 [] }

/-- The skill directory produced by `create_skill_structure`: the rendered
`SKILL.md` plus the three resource directories with their example files and
the `.gitkeep` marker. -/
def initSkillDir (name : List Char) (nameVal : YVal) : SkillDir :=
  { pathStr := String.mk name
    pathExists := true
    pathIsDir := true
    name := name
    skillMd := some (initSkillMdDoc name nameVal)
    scripts := some [⟨"example.py", "scripts/example.py"⟩, ⟨".gitkeep", "scripts/.gitkeep"⟩]
    references := some [⟨"example.md", "references/example.md"⟩]
    assets := some [⟨"example-template.md", "assets/example-template.md"⟩] }

/-- The acceptance test of `init_skill.main` (line 167):
`skill_name.replace('-', '').replace('_', '').isalnum()`. -/
def skillNameAccepted (name : List Char) : Bool :=
  let stripped := name.filter (fun c => !(c == '-') && !(c == '_'))
  !stripped.isEmpty && stripped.all pyIsAlnumChar

/-- Modelled from the spec: the input constraint regular expression
`^[A-Za-z0-9_-]+$` (at least one character, each a letter, digit, hyphen or
underscore).  This is the spec-side definition for the refinement claim
about name acceptance; `skillNameAccepted` is the code-side one. -/
def specNameRegexMatch (name : List Char) : Bool :=
  !name.isEmpty && name.all (fun c => pyIsAlnumChar c || c == '-' || c == '_')

/-- Outcome of running `init_skill.main`. -/
inductive InitOutcome where
  | usageError
  | alreadyExists
  | created (sd : SkillDir)

/-- `init_skill.main`: reject names failing the `isalnum` test with a usage
error (exit 1), fail when the target directory already exists, otherwise
create the skill structure. -/
def init_main (name : List Char) (destExists : Bool) (nameVal : YVal) : InitOutcome :=
  if !skillNameAccepted name then
    .usageError
  else if destExists then
    .alreadyExists
  else
    .created (initSkillDir name nameVal)

/-- One filesystem entry as seen by `Path.rglob('*')`: its absolute path as
components, whether it is a regular file, and (for regular files) its byte
content. -/
structure FsEntry where
  path : List String
  isFile : Bool
  content : List Nat

/-- The test selecting the entries `Path.rglob('*')` yields for the skill
directory: strict descendants of the root. -/
def underRoot (root : List String) (p : List String) : Bool :=
  root.isPrefixOf p && decide (root.length < p.length)

/-- `file_path.relative_to(self.skill_path)` for a path under the root. -/
def relToRoot (root p : List String) : List String :=
  p.drop root.length

/-- The entries written into the zip archive by `SkillPackager.package`
(lines 213-219): every regular file strictly under the skill directory,
stored under its path relative to the skill root with its byte content.
Deflate compression is lossless, so an archive entry is modelled by its
path and bytes.  The walk is modelled over the filesystem state before the
write; an output path nested inside the skill directory (never the CLI
default, which is the skill's parent) could additionally capture the
partially-written archive itself, a dynamic effect outside this static
model. -/
def archiveEntries (root : List String) (fs : List FsEntry) :
    List (List String × List Nat) :=
  ((fs.filter (fun e => underRoot root e.path)).filter (fun e => e.isFile)).map
    (fun e => (relToRoot root e.path, e.content))

/-- A `pathlib.Path` value: whether it is absolute, and its components. -/
structure PyPath where
  absolute : Bool
  comps : List String
deriving DecidableEq

/-- `p / c`. -/
def PyPath.child (p : PyPath) (c : String) : PyPath :=
  ⟨p.absolute, p.comps ++ [c]⟩

/-- The directories created by `output_dir.mkdir(parents=True, exist_ok=True)`:
the path itself and all its ancestors. -/
def mkdirParents (p : PyPath) : List PyPath :=
  (List.range p.comps.length).map (fun i => ⟨p.absolute, p.comps.take (i + 1)⟩)

/-- The filesystem state touched by the packager: the set of existing
directories and the zip archives on disk, each with its entry list. -/
structure PkgFS where
  dirs : List PyPath
  archives : List (PyPath × List (List String × List Nat))

/-- Lookup of the archive stored at a path (first match). -/
def findArchive (l : List (PyPath × List (List String × List Nat)))
    (p : PyPath) : Option (List (List String × List Nat)) :=
  match l with
  | [] => none
  | (q, e) :: rest => if q = p then some e else findArchive rest p

/-- `SkillPackager.package` (lines 204-221): ensures the output directory
exists, opens `output_dir / (skill_name + '.skill')` in mode `'w'`
(truncating any pre-existing archive at that path), writes every regular
file under the skill directory, and returns the package path.  The skill
name is `skill_path.name`, the last component of the skill path. -/
def SkillPackager.package (fs : List FsEntry) (skillPath : PyPath)
    (outputDir : PyPath) (st : PkgFS) : PkgFS × PyPath :=
  let st := { st with dirs := st.dirs ++ mkdirParents outputDir }
  let skillName := skillPath.comps.getLastD ""
  let packagePath := outputDir.child (skillName ++ ".skill")
  let entries := archiveEntries skillPath.comps fs
  let st := { st with
    archives := (st.archives.filter (fun a => !(a.1 = packagePath : Bool))) ++ [(packagePath, entries)] }
  (st, packagePath)

/-- The errors contributed by the description quality checks on a string
description. -/
def descErrorsOfStr (d : String) : List String :=
  (if d.isEmpty || (pyStrip d.toList).length < 20 then [msgDescTooShort] else [])
    ++ (if listContainsSub "TODO".toList d.toList then [msgDescTODO] else [])

/-- The name-mismatch warning contributed by `_validate_yaml_frontmatter`. -/
def mismatchWarnings (dirName : String) (nv : YVal) : List String :=
  if !nv.pyEqStr dirName then [msgNameMismatch nv dirName] else []

/-- The extra-fields warning contributed by `_validate_yaml_frontmatter`. -/
def fmExtraWarnings (fm : List (String × YVal)) : List String :=
  let extra := (fm.map Prod.fst).filter (fun k => !(k == "name") && !(k == "description"))
  if !extra.isEmpty then [msgExtraFields extra] else []

/-- The errors contributed by `_validate_skill_body`. -/
def bodyErrors (body : List Char) : List String :=
  if (pyStrip body).isEmpty then [msgBodyEmpty] else []

/-- The warnings contributed by `_validate_skill_body`. -/
def bodyWarnings (body : List Char) : List String :=
  let b := pyStrip body
  if b.isEmpty then []
  else
    (if listContainsSub "TODO".toList b then [msgBodyTODO] else [])
      ++ (if b.length < 100 then [msgBodyShort] else [])
      ++ (if b.length > 25000 then [msgBodyLong] else [])

/-- The errors contributed by `_validate_naming_conventions`. -/
def namingErrors (name : List Char) : List String :=
  if name.contains ' ' then [msgNameSpace (String.mk name)] else []

/-- The warnings contributed by `_validate_naming_conventions`. -/
def namingWarnings (name : List Char) : List String :=
  (if !pyIsLower name then [msgNameNotLower (String.mk name)] else [])
    ++ (if name.contains '_' then [msgNameUnderscore (String.mk name)] else [])

theorem _validate_directory_exists_ok (s : SkillDir) (st : VState)
    (h1 : s.pathExists = true) (h2 : s.pathIsDir = true) :
    _validate_directory_exists s st = .ok st := by
  simp [_validate_directory_exists, h1, h2]

theorem _validate_skill_md_exists_ok (s : SkillDir) (st : VState) (d : SkillMdDoc)
    (h : s.skillMd = some d) :
    _validate_skill_md_exists s st = .ok st := by
  simp [_validate_skill_md_exists, h]

theorem descriptionChecks_str (d : String) (st : VState) :
    descriptionChecks (.str d) st =
      .ok { st with errors := st.errors ++ descErrorsOfStr d } := by
  simp only [descriptionChecks, YVal.truthy, YVal.pyStripped, YVal.pyContainsTODO,
    descErrorsOfStr, Bind.bind, Except.bind, pure, Except.pure]
  split_ifs <;> simp_all [List.append_assoc] <;> omega

theorem _validate_yaml_frontmatter_ok (s : SkillDir) (st : VState) (d : SkillMdDoc)
    (fm : List (String × YVal)) (nv : YVal) (descStr : String)
    (hmd : s.skillMd = some d) (h1 : d.startsWithMarker = true)
    (h2 : d.hasClosingMarker = true) (h3 : d.yaml = .ok (.ydict fm))
    (hn : fmGet fm "name" = some nv)
    (hd : fmGet fm "description" = some (.str descStr)) :
    _validate_yaml_frontmatter s st =
      .ok { errors := st.errors ++ descErrorsOfStr descStr,
            warnings := st.warnings ++ mismatchWarnings s.nameStr nv
              ++ fmExtraWarnings fm } := by
  have hkn : fmHasKey fm "name" = true := by simp [fmHasKey, hn]
  have hkd : fmHasKey fm "description" = true := by simp [fmHasKey, hd]
  simp only [_validate_yaml_frontmatter, hmd, h1, h2, h3, hkn, hkd, hn, hd,
    Bool.not_true, Bool.false_eq_true, if_false, ite_false, mismatchWarnings,
    fmExtraWarnings, descriptionChecks_str, Bind.bind, Except.bind, pure,
    Except.pure]
  split_ifs <;> simp_all [List.append_assoc]

theorem _validate_skill_body_ok (s : SkillDir) (st : VState) (d : SkillMdDoc)
    (hmd : s.skillMd = some d) (h2 : d.hasClosingMarker = true) :
    _validate_skill_body s st =
      .ok { errors := st.errors ++ bodyErrors d.body,
            warnings := st.warnings ++ bodyWarnings d.body } := by
  simp only [_validate_skill_body, hmd, h2, bodyErrors, bodyWarnings,
    Bool.not_true, Bool.false_eq_true, if_false, ite_false]
  split_ifs <;> simp_all [List.append_assoc]

theorem _validate_resources_ok (s : SkillDir) (st : VState) :
    _validate_resources s st =
      .ok { st with warnings := st.warnings ++ resourceWarnings s } := rfl

theorem _validate_naming_conventions_ok (s : SkillDir) (st : VState) :
    _validate_naming_conventions s st =
      .ok { errors := st.errors ++ namingErrors s.name,
            warnings := st.warnings ++ namingWarnings s.name } := by
  simp only [_validate_naming_conventions, namingErrors, namingWarnings]
  split_ifs <;> simp_all [List.append_assoc, SkillDir.nameStr]

/-- The full error list of a validation run that raises no exception:
contributions of the description, body, and naming checks in order. -/
def fullPassErrors (body : List Char) (name : List Char) (descStr : String) :
    List String :=
  descErrorsOfStr descStr ++ bodyErrors body ++ namingErrors name

/-- The full warning list of a validation run that raises no exception. -/
def fullPassWarnings (s : SkillDir) (fm : List (String × YVal)) (nv : YVal)
    (body : List Char) : List String :=
  mismatchWarnings s.nameStr nv ++ fmExtraWarnings fm ++ bodyWarnings body
    ++ resourceWarnings s ++ namingWarnings s.name

/-- Master lemma: when the structural checks pass (directory present,
`SKILL.md` present, both markers found, header a mapping with a `name` key
and a string `description`), no exception is raised and the report is the
concatenation of the individual checks' contributions. -/
theorem validate_full_pass (s : SkillDir) (d : SkillMdDoc)
    (fm : List (String × YVal)) (nv : YVal) (descStr : String)
    (hpe : s.pathExists = true) (hpd : s.pathIsDir = true)
    (hmd : s.skillMd = some d) (h1 : d.startsWithMarker = true)
    (h2 : d.hasClosingMarker = true) (h3 : d.yaml = .ok (.ydict fm))
    (hn : fmGet fm "name" = some nv)
    (hd : fmGet fm "description" = some (.str descStr)) :
    SkillValidator.validate s =
      .ok ((fullPassErrors d.body s.name descStr).isEmpty,
        fullPassErrors d.body s.name descStr,
        fullPassWarnings s fm nv d.body) := by
  simp only [SkillValidator.validate, runChecks,
    _validate_directory_exists_ok s _ hpe hpd,
    _validate_skill_md_exists_ok s _ d hmd,
    _validate_yaml_frontmatter_ok s _ d fm nv descStr hmd h1 h2 h3 hn hd,
    _validate_skill_body_ok s _ d hmd h2,
    _validate_resources_ok, _validate_naming_conventions_ok,
    Except.bind, fullPassErrors, fullPassWarnings]
  simp [List.append_assoc]

/-- C7: a present directory with no `SKILL.md` yields `ok = false`, exactly
one error (the missing-`SKILL.md` message) and no warnings: the raise in
`_validate_skill_md_exists` halts the pass before any warning-producing
check runs. -/
theorem C7_missing_skill_md_single_error (s : SkillDir)
    (h1 : s.pathExists = true) (h2 : s.pathIsDir = true)
    (h3 : s.skillMd = none) :
    SkillValidator.validate s = .ok (false, [msgNoSkillMd], []) := by
  simp [SkillValidator.validate, runChecks,
    _validate_directory_exists_ok s _ h1 h2, _validate_skill_md_exists, h3,
    Except.bind]

/-- An existing directory that lacks `SKILL.md`. -/
def exC7 : SkillDir :=
  { pathStr := "skills/empty-skill"
    pathExists := true
    pathIsDir := true
    name := "empty-skill".toList
    skillMd := none
    scripts := none
    references := none
    assets := none }

theorem C7_missing_skill_md_single_error_witness :
    SkillValidator.validate exC7 = .ok (false, [msgNoSkillMd], []) :=
  C7_missing_skill_md_single_error exC7 rfl rfl rfl

/-- C2 amended: a parsed header that lacks the `name` field does not merely
accumulate an error — it raises, halting the pass with exactly that single
error and no warnings, exactly like the three structural failures. -/
theorem C2_missing_name_halts (s : SkillDir) (d : SkillMdDoc)
    (fm : List (String × YVal))
    (hpe : s.pathExists = true) (hpd : s.pathIsDir = true)
    (hmd : s.skillMd = some d) (h1 : d.startsWithMarker = true)
    (h2 : d.hasClosingMarker = true) (h3 : d.yaml = .ok (.ydict fm))
    (hn : fmHasKey fm "name" = false) :
    SkillValidator.validate s = .ok (false, [msgNoNameField], []) := by
  simp [SkillValidator.validate, runChecks,
    _validate_directory_exists_ok s _ hpe hpd,
    _validate_skill_md_exists_ok s _ d hmd,
    _validate_yaml_frontmatter, hmd, h1, h2, h3, hn, Except.bind, throw,
    throwThe, MonadExceptOf.throw]

/-- A directory whose name contains a space and whose header lacks `name`:
were the claim correct, the naming check would still run and add its
space error; the code instead halts at the missing `name` field. -/
def cexC2 : SkillDir :=
  { pathStr := "skills/bad name"
    pathExists := true
    pathIsDir := true
    name := "bad name".toList
    skillMd := some
      { startsWithMarker := true
        hasClosingMarker := true
        yaml := .ok (.ydict [("description", .str "A completely adequate description text.")])
        body := "Some body".toList }
    scripts := none
    references := none
    assets := none }

/-- C2 counterexample: with the `name` field missing and a space in the
directory name, the report holds only the missing-`name` error — the
naming check (and every later check) never ran, contradicting the claim
that a missing `name` merely accumulates and lets the remaining checks
proceed. -/
theorem C2_counterexample :
    SkillValidator.validate cexC2 = .ok (false, [msgNoNameField], []) ∧
      msgNameSpace "bad name" ∉ [msgNoNameField] :=
  ⟨rfl, by decide⟩

/-- A header with `description` only, used to discharge the hypotheses of
the amended C2 theorem. -/
def exC2 : SkillDir :=
  { pathStr := "skills/anon-skill"
    pathExists := true
    pathIsDir := true
    name := "anon-skill".toList
    skillMd := some
      { startsWithMarker := true
        hasClosingMarker := true
        yaml := .ok (.ydict [("description", .str "A completely adequate description text.")])
        body := "Some body".toList }
    scripts := none
    references := none
    assets := none }

theorem C2_missing_name_halts_witness :
    SkillValidator.validate exC2 = .ok (false, [msgNoNameField], []) :=
  C2_missing_name_halts exC2
    { startsWithMarker := true
      hasClosingMarker := true
      yaml := .ok (.ydict [("description", .str "A completely adequate description text.")])
      body := "Some body".toList }
    [("description", .str "A completely adequate description text.")]
    rfl rfl rfl rfl rfl rfl (by decide)

theorem pyIsAlnumChar_not_dash_underscore (c : Char)
    (h : pyIsAlnumChar c = true) : (!(c == '-') && !(c == '_')) = true := by
  by_cases hd : c = '-'
  · subst hd
    exact absurd h (by decide)
  · by_cases hu : c = '_'
    · subst hu
      exact absurd h (by decide)
    · simp [hd, hu]

theorem skillNameAccepted_iff (name : List Char) :
    skillNameAccepted name =
      (specNameRegexMatch name && name.any pyIsAlnumChar) := by
  apply Bool.coe_iff_coe.mp
  constructor
  · intro h
    simp only [skillNameAccepted, Bool.and_eq_true, List.all_eq_true,
      Bool.not_eq_true', List.isEmpty_eq_false, ne_eq] at h
    rcases h with ⟨hne, hall⟩
    rcases List.exists_mem_of_ne_nil _ hne with ⟨c, hc⟩
    have hcn := (List.mem_filter.mp hc).1
    have hcal := hall c hc
    simp only [Bool.and_eq_true, specNameRegexMatch, List.any_eq_true,
      List.all_eq_true, Bool.not_eq_true', List.isEmpty_eq_false, ne_eq]
    refine ⟨⟨?_, ?_⟩, c, hcn, hcal⟩
    · intro hnil
      subst hnil
      exact absurd hcn (List.not_mem_nil c)
    · intro x hx
      by_cases hxf : (!(x == '-') && !(x == '_')) = true
      · have hxs : x ∈ name.filter (fun c => !(c == '-') && !(c == '_')) :=
          List.mem_filter.mpr ⟨hx, hxf⟩
        simp [hall x hxs]
      · have hxdu : x = '-' ∨ x = '_' := by
          by_contra hcon
          push_neg at hcon
          exact hxf (by simp [hcon.1, hcon.2])
        rcases hxdu with hv | hv <;> simp [hv]
  · intro h
    simp only [Bool.and_eq_true, specNameRegexMatch, List.any_eq_true,
      List.all_eq_true, Bool.not_eq_true', List.isEmpty_eq_false, ne_eq] at h
    rcases h with ⟨⟨hne, hall⟩, c, hcn, hcal⟩
    simp only [skillNameAccepted, Bool.and_eq_true, List.all_eq_true,
      Bool.not_eq_true', List.isEmpty_eq_false, ne_eq]
    constructor
    · intro hnil
      have hcs : c ∈ name.filter (fun c => !(c == '-') && !(c == '_')) :=
        List.mem_filter.mpr ⟨hcn, pyIsAlnumChar_not_dash_underscore c hcal⟩
      rw [hnil] at hcs
      exact absurd hcs (List.not_mem_nil c)
    · intro x hx
      have hxn := (List.mem_filter.mp hx).1
      have hxp := (List.mem_filter.mp hx).2
      rcases (by simpa [or_assoc] using hall x hxn :
          pyIsAlnumChar x = true ∨ x = '-' ∨ x = '_') with hv | hv | hv
      · exact hv
      · subst hv
        simp at hxp
      · subst hv
        simp at hxp

/-- C4 amended: over ASCII names, the initializer accepts a name (does not
exit with the usage error) exactly when the name matches `^[A-Za-z0-9_-]+$`
AND contains at least one alphanumeric character.  A name consisting solely
of hyphens/underscores matches the claimed regular expression but is
rejected, because `name.replace('-','').replace('_','').isalnum()` is false
for the empty remainder. -/
theorem C4_accept_iff_regex_and_alnum (name : List Char) (destExists : Bool)
    (nameVal : YVal) :
    init_main name destExists nameVal ≠ InitOutcome.usageError ↔
      (specNameRegexMatch name && name.any pyIsAlnumChar) = true := by
  rw [← skillNameAccepted_iff]
  unfold init_main
  rcases h : skillNameAccepted name with _ | _
  · simp [h]
  · simp only [h, Bool.not_true, Bool.false_eq_true, if_false, ite_false]
    rcases destExists with _ | _ <;> simp

/-- C4 counterexample: the name consisting of a single hyphen matches the
claimed regular expression `^[A-Za-z0-9_-]+$`, yet the initializer rejects
it with the usage error. -/
theorem C4_counterexample :
    init_main "-".toList false (.str "-") = InitOutcome.usageError ∧
      specNameRegexMatch "-".toList = true :=
  ⟨rfl, by decide⟩

theorem msgNameSpace_ne_descShort (n : String) :
    msgNameSpace n ≠ msgDescTooShort := by
  intro h
  have h2 : (msgNameSpace n).data.take 2 = msgDescTooShort.data.take 2 := by rw [h]
  have h3 : (msgNameSpace n).data.take 2 = ['S', 'k'] := rfl
  rw [h3] at h2
  exact absurd h2 (by decide)

theorem msgNameSpace_ne_descTODO (n : String) :
    msgNameSpace n ≠ msgDescTODO := by
  intro h
  have h2 : (msgNameSpace n).data.take 2 = msgDescTODO.data.take 2 := by rw [h]
  have h3 : (msgNameSpace n).data.take 2 = ['S', 'k'] := rfl
  rw [h3] at h2
  exact absurd h2 (by decide)

theorem msgNameSpace_ne_bodyEmpty (n : String) :
    msgNameSpace n ≠ msgBodyEmpty := by
  intro h
  have h2 : (msgNameSpace n).data.take 2 = msgBodyEmpty.data.take 2 := by rw [h]
  have h3 : (msgNameSpace n).data.take 2 = ['S', 'k'] := rfl
  rw [h3] at h2
  exact absurd h2 (by decide)

theorem msgNameSpace_not_mem_descErrors (n d : String) :
    msgNameSpace n ∉ descErrorsOfStr d := by
  unfold descErrorsOfStr
  intro h
  rcases List.mem_append.mp h with h | h
  · split_ifs at h
    · exact absurd (List.mem_singleton.mp h) (msgNameSpace_ne_descShort n)
    · exact absurd h (List.not_mem_nil _)
  · split_ifs at h
    · exact absurd (List.mem_singleton.mp h) (msgNameSpace_ne_descTODO n)
    · exact absurd h (List.not_mem_nil _)

theorem msgNameSpace_not_mem_bodyErrors (n : String) (body : List Char) :
    msgNameSpace n ∉ bodyErrors body := by
  unfold bodyErrors
  intro h
  split_ifs at h
  · exact absurd (List.mem_singleton.mp h) (msgNameSpace_ne_bodyEmpty n)
  · exact absurd h (List.not_mem_nil _)

theorem msgDescTooShort_not_mem_bodyErrors (body : List Char) :
    msgDescTooShort ∉ bodyErrors body := by
  unfold bodyErrors
  intro h
  split_ifs at h
  · exact absurd (List.mem_singleton.mp h) (by decide)
  · exact absurd h (List.not_mem_nil _)

theorem msgDescTooShort_not_mem_namingErrors (nm : List Char) :
    msgDescTooShort ∉ namingErrors nm := by
  unfold namingErrors
  intro h
  split_ifs at h
  · exact absurd (List.mem_singleton.mp h).symm (msgNameSpace_ne_descShort _)
  · exact absurd h (List.not_mem_nil _)

/-- C5 amended: when validation reaches the naming check (all structural
checks pass and the description is a string), a directory name containing a
space contributes exactly one error from the naming check, whatever the
other accumulating checks produced. -/
theorem C5_space_exactly_one_naming_error (s : SkillDir) (d : SkillMdDoc)
    (fm : List (String × YVal)) (nv : YVal) (descStr : String)
    (hpe : s.pathExists = true) (hpd : s.pathIsDir = true)
    (hmd : s.skillMd = some d) (h1 : d.startsWithMarker = true)
    (h2 : d.hasClosingMarker = true) (h3 : d.yaml = .ok (.ydict fm))
    (hn : fmGet fm "name" = some nv)
    (hd : fmGet fm "description" = some (.str descStr))
    (hsp : s.name.contains ' ' = true) :
    ∃ b E W, SkillValidator.validate s = .ok (b, E, W) ∧
      E.count (msgNameSpace s.nameStr) = 1 := by
  refine ⟨_, _, _, validate_full_pass s d fm nv descStr hpe hpd hmd h1 h2 h3 hn hd, ?_⟩
  unfold fullPassErrors
  rw [List.count_append, List.count_append]
  rw [List.count_eq_zero.mpr (msgNameSpace_not_mem_descErrors s.nameStr descStr)]
  rw [List.count_eq_zero.mpr (msgNameSpace_not_mem_bodyErrors s.nameStr d.body)]
  have hmem : ' ' ∈ s.name := by simpa using hsp
  simp [namingErrors, hmem, SkillDir.nameStr]

/-- A directory whose name contains a space but has no `SKILL.md`: the raise
at the missing metadata document halts the pass, so the naming check never
runs and no naming error is produced. -/
def cexC5 : SkillDir :=
  { pathStr := "skills/has space"
    pathExists := true
    pathIsDir := true
    name := "has space".toList
    skillMd := none
    scripts := none
    references := none
    assets := none }

/-- C5 counterexample: a skill directory whose name contains a space for
which validate reports no error from the naming-convention check at all
(the single error is the missing `SKILL.md` one) — the claimed outcome is
not independent of the other checks. -/
theorem C5_counterexample :
    SkillValidator.validate cexC5 = .ok (false, [msgNoSkillMd], []) ∧
      msgNameSpace "has space" ∉ [msgNoSkillMd] :=
  ⟨rfl, by decide⟩

/-- A structurally valid skill whose directory name contains a space. -/
def exC5 : SkillDir :=
  { pathStr := "skills/my skill"
    pathExists := true
    pathIsDir := true
    name := "my skill".toList
    skillMd := some
      { startsWithMarker := true
        hasClosingMarker := true
        yaml := .ok (.ydict [("name", .str "my skill"),
          ("description", .str "A description that is long enough to pass.")])
        body := "Real body content here.".toList }
    scripts := none
    references := none
    assets := none }

theorem C5_space_exactly_one_naming_error_witness :
    ∃ b E W, SkillValidator.validate exC5 = .ok (b, E, W) ∧
      E.count (msgNameSpace exC5.nameStr) = 1 :=
  C5_space_exactly_one_naming_error exC5
    { startsWithMarker := true
      hasClosingMarker := true
      yaml := .ok (.ydict [("name", .str "my skill"),
        ("description", .str "A description that is long enough to pass.")])
      body := "Real body content here.".toList }
    [("name", .str "my skill"),
      ("description", .str "A description that is long enough to pass.")]
    (.str "my skill") "A description that is long enough to pass."
    rfl rfl rfl rfl rfl rfl rfl rfl (by decide)

theorem isEmpty_pyStrip_short (descStr : String) (h : descStr.isEmpty = true) :
    (pyStrip descStr.toList).length < 20 := by
  have he : descStr = "" := (String.isEmpty_iff descStr).mp h
  subst he
  decide

/-- C6 amended: provided the parsed header also has a `name` field (else the
pass halts before the description checks run), a string description yields
the too-short error exactly when its trimmed length is below 20
characters. -/
theorem C6_short_description_error_iff (s : SkillDir) (d : SkillMdDoc)
    (fm : List (String × YVal)) (nv : YVal) (descStr : String)
    (hpe : s.pathExists = true) (hpd : s.pathIsDir = true)
    (hmd : s.skillMd = some d) (h1 : d.startsWithMarker = true)
    (h2 : d.hasClosingMarker = true) (h3 : d.yaml = .ok (.ydict fm))
    (hn : fmGet fm "name" = some nv)
    (hd : fmGet fm "description" = some (.str descStr)) :
    ∃ b E W, SkillValidator.validate s = .ok (b, E, W) ∧
      (msgDescTooShort ∈ E ↔ (pyStrip descStr.toList).length < 20) := by
  refine ⟨_, _, _, validate_full_pass s d fm nv descStr hpe hpd hmd h1 h2 h3 hn hd, ?_⟩
  unfold fullPassErrors
  constructor
  · intro h
    rcases List.mem_append.mp h with h | h
    · rcases List.mem_append.mp h with h | h
      · unfold descErrorsOfStr at h
        rcases List.mem_append.mp h with h | h
        · split_ifs at h with hc
          · rcases (by simpa using hc :
                descStr.isEmpty = true ∨ (pyStrip descStr.toList).length < 20) with
              hc2 | hc2
            · exact isEmpty_pyStrip_short descStr hc2
            · exact hc2
          · exact absurd h (List.not_mem_nil _)
        · split_ifs at h
          · exact absurd (List.mem_singleton.mp h) (by decide)
          · exact absurd h (List.not_mem_nil _)
      · exact absurd h (msgDescTooShort_not_mem_bodyErrors d.body)
    · exact absurd h (msgDescTooShort_not_mem_namingErrors s.name)
  · intro hlen
    apply List.mem_append_left
    apply List.mem_append_left
    unfold descErrorsOfStr
    apply List.mem_append_left
    have hcond : (descStr.isEmpty
        || decide ((pyStrip descStr.toList).length < 20)) = true := by
      simp only [Bool.or_eq_true, decide_eq_true_eq]
      exact Or.inr hlen
    rw [if_pos hcond]
    simp

/-- A structurally valid skill whose description is exactly 19 characters. -/
def exC6 : SkillDir :=
  { pathStr := "skills/brief-skill"
    pathExists := true
    pathIsDir := true
    name := "brief-skill".toList
    skillMd := some
      { startsWithMarker := true
        hasClosingMarker := true
        yaml := .ok (.ydict [("name", .str "brief-skill"),
          ("description", .str "nineteen chars abc.")])
        body := "Real body content here.".toList }
    scripts := none
    references := none
    assets := none }

theorem C6_short_description_error_iff_witness :
    ∃ b E W, SkillValidator.validate exC6 = .ok (b, E, W) ∧
      (msgDescTooShort ∈ E ↔ (pyStrip "nineteen chars abc.".toList).length < 20) :=
  C6_short_description_error_iff exC6
    { startsWithMarker := true
      hasClosingMarker := true
      yaml := .ok (.ydict [("name", .str "brief-skill"),
        ("description", .str "nineteen chars abc.")])
      body := "Real body content here.".toList }
    [("name", .str "brief-skill"), ("description", .str "nineteen chars abc.")]
    (.str "brief-skill") "nineteen chars abc."
    rfl rfl rfl rfl rfl rfl rfl rfl

/-- A header with a 9-character description but no `name` field. -/
def cexC6 : SkillDir :=
  { pathStr := "skills/nameless"
    pathExists := true
    pathIsDir := true
    name := "nameless".toList
    skillMd := some
      { startsWithMarker := true
        hasClosingMarker := true
        yaml := .ok (.ydict [("description", .str "too short")])
        body := "Some body".toList }
    scripts := none
    references := none
    assets := none }

/-- C6 counterexample: a parsed header with a string `description` of
trimmed length 9 for which validate adds no description-length error — the
missing `name` field raises first, so the description checks never run,
refuting "adds a description-length error exactly when the trimmed
description is shorter than 20 characters" as a property of every metadata
document with a string description. -/
theorem C6_counterexample :
    SkillValidator.validate cexC6 = .ok (false, [msgNoNameField], []) ∧
      msgDescTooShort ∉ [msgNoNameField] ∧
      (pyStrip "too short".toList).length < 20 :=
  ⟨rfl, by decide, by decide⟩

/-- C10: the lowercase-convention warning uses `str.islower`, which is false
for a name with no cased characters at all; a skill directory whose name is
all digits and hyphens therefore receives the "should be lowercase" warning
(provided validation reaches the naming check, i.e. the skill has a valid
metadata document as the data model requires). -/
theorem C10_uncased_name_gets_lowercase_warning (s : SkillDir) (d : SkillMdDoc)
    (fm : List (String × YVal)) (nv : YVal) (descStr : String)
    (hpe : s.pathExists = true) (hpd : s.pathIsDir = true)
    (hmd : s.skillMd = some d) (h1 : d.startsWithMarker = true)
    (h2 : d.hasClosingMarker = true) (h3 : d.yaml = .ok (.ydict fm))
    (hn : fmGet fm "name" = some nv)
    (hd : fmGet fm "description" = some (.str descStr))
    (hnc : s.name.all (fun c => !c.isAlpha) = true) :
    ∃ b E W, SkillValidator.validate s = .ok (b, E, W) ∧
      msgNameNotLower s.nameStr ∈ W := by
  refine ⟨_, _, _, validate_full_pass s d fm nv descStr hpe hpd hmd h1 h2 h3 hn hd, ?_⟩
  have hlow : pyIsLower s.name = false := by
    unfold pyIsLower
    have hany : s.name.any (fun c => c.isAlpha) = false := by
      rw [List.any_eq_false]
      intro x hx
      simpa using (List.all_eq_true.mp hnc) x hx
    simp [hany]
  unfold fullPassWarnings namingWarnings
  simp [hlow, SkillDir.nameStr]

/-- A structurally valid skill directory named only with digits and a
hyphen. -/
def exC10 : SkillDir :=
  { pathStr := "skills/123-456"
    pathExists := true
    pathIsDir := true
    name := "123-456".toList
    skillMd := some
      { startsWithMarker := true
        hasClosingMarker := true
        yaml := .ok (.ydict [("name", .str "123-456"),
          ("description", .str "A description that is long enough to pass.")])
        body := "Real body content here.".toList }
    scripts := none
    references := none
    assets := none }

theorem C10_uncased_name_gets_lowercase_warning_witness :
    ∃ b E W, SkillValidator.validate exC10 = .ok (b, E, W) ∧
      msgNameNotLower exC10.nameStr ∈ W :=
  C10_uncased_name_gets_lowercase_warning exC10
    { startsWithMarker := true
      hasClosingMarker := true
      yaml := .ok (.ydict [("name", .str "123-456"),
        ("description", .str "A description that is long enough to pass.")])
      body := "Real body content here.".toList }
    [("name", .str "123-456"),
      ("description", .str "A description that is long enough to pass.")]
    (.str "123-456") "A description that is long enough to pass."
    rfl rfl rfl rfl rfl rfl rfl rfl (by decide)

/-- A YAML scalar value that is not a string: a number, a boolean, or null. -/
def YVal.isScalarNonStr : YVal → Bool
  | .int _ => true
  | .bool _ => true
  | .null => true
  | _ => false

/-- True for the exceptions `validate` does not catch. -/
def PyExn.uncaught : PyExn → Bool
  | .validationError _ => false
  | .attributeError _ => true
  | .typeError _ => true

theorem descriptionChecks_scalar (v : YVal) (st : VState)
    (hv : v.isScalarNonStr = true) :
    ∃ e st', descriptionChecks v st = .error (e, st') ∧ e.uncaught = true := by
  rcases v with s | n | b | _ | l | d2 <;> simp [YVal.isScalarNonStr] at hv
  · by_cases hn : n = 0
    · subst hn
      exact ⟨.typeError "argument of type is not iterable",
        { st with errors := st.errors ++ [msgDescTooShort] },
        by simp [descriptionChecks, YVal.truthy, YVal.pyContainsTODO,
          Bind.bind, Except.bind, pure, Except.pure, throw, throwThe,
          MonadExceptOf.throw], rfl⟩
    · exact ⟨.attributeError "object has no attribute strip", st,
        by simp [descriptionChecks, YVal.truthy, YVal.pyStripped, hn,
          Bind.bind, Except.bind, pure, Except.pure, throw, throwThe,
          MonadExceptOf.throw], rfl⟩
  · rcases b with _ | _
    · exact ⟨.typeError "argument of type is not iterable",
        { st with errors := st.errors ++ [msgDescTooShort] },
        by simp [descriptionChecks, YVal.truthy, YVal.pyContainsTODO,
          Bind.bind, Except.bind, pure, Except.pure, throw, throwThe,
          MonadExceptOf.throw], rfl⟩
    · exact ⟨.attributeError "object has no attribute strip", st,
        by simp [descriptionChecks, YVal.truthy, YVal.pyStripped,
          Bind.bind, Except.bind, pure, Except.pure, throw, throwThe,
          MonadExceptOf.throw], rfl⟩
  · exact ⟨.typeError "argument of type is not iterable",
      { st with errors := st.errors ++ [msgDescTooShort] },
      by simp [descriptionChecks, YVal.truthy, YVal.pyContainsTODO,
        Bind.bind, Except.bind, pure, Except.pure, throw, throwThe,
        MonadExceptOf.throw], rfl⟩

theorem _validate_yaml_frontmatter_scalar (s : SkillDir) (st : VState)
    (d : SkillMdDoc) (fm : List (String × YVal)) (nv v : YVal)
    (hmd : s.skillMd = some d) (h1 : d.startsWithMarker = true)
    (h2 : d.hasClosingMarker = true) (h3 : d.yaml = .ok (.ydict fm))
    (hn : fmGet fm "name" = some nv)
    (hd : fmGet fm "description" = some v)
    (hv : v.isScalarNonStr = true) :
    ∃ e st', _validate_yaml_frontmatter s st = .error (e, st') ∧
      e.uncaught = true := by
  have hkn : fmHasKey fm "name" = true := by simp [fmHasKey, hn]
  have hkd : fmHasKey fm "description" = true := by simp [fmHasKey, hd]
  simp only [_validate_yaml_frontmatter, hmd, h1, h2, h3, hkn, hkd, hn, hd,
    Bool.not_true, Bool.false_eq_true, if_false, ite_false, Bind.bind,
    Except.bind, pure, Except.pure]
  set st1 := if !nv.pyEqStr s.nameStr then
      { st with warnings := st.warnings ++ [msgNameMismatch nv s.nameStr] }
    else st with hst1
  obtain ⟨e, st', heq, hu⟩ := descriptionChecks_scalar v st1 hv
  refine ⟨e, st', ?_, hu⟩
  rw [heq]

/-- C9 amended: for a non-string scalar `description` value (a YAML number,
boolean, or null — the cases the claim names), validate terminates with an
uncaught exception from the description checks instead of returning a
report.  (An empty YAML list or mapping, also non-strings, slip through:
they are falsy, so `.strip()` is never reached, and `'TODO' in v` succeeds
on them — see the counterexample.) -/
theorem C9_nonstring_scalar_description_crashes (s : SkillDir)
    (d : SkillMdDoc) (fm : List (String × YVal)) (nv v : YVal)
    (hpe : s.pathExists = true) (hpd : s.pathIsDir = true)
    (hmd : s.skillMd = some d) (h1 : d.startsWithMarker = true)
    (h2 : d.hasClosingMarker = true) (h3 : d.yaml = .ok (.ydict fm))
    (hn : fmGet fm "name" = some nv)
    (hd : fmGet fm "description" = some v)
    (hv : v.isScalarNonStr = true) :
    ∃ e, SkillValidator.validate s = .error e := by
  obtain ⟨e, st', heq, hu⟩ :=
    _validate_yaml_frontmatter_scalar s { errors := [], warnings := [] }
      d fm nv v hmd h1 h2 h3 hn hd hv
  have hrun : runChecks s = .error (e, st') := by
    simp [runChecks, _validate_directory_exists_ok s _ hpe hpd,
      _validate_skill_md_exists_ok s _ d hmd, heq, Except.bind]
  refine ⟨e, ?_⟩
  unfold SkillValidator.validate
  rw [hrun]
  rcases e with m | m | m
  · simp [PyExn.uncaught] at hu
  · rfl
  · rfl

/-- A structurally valid skill whose `description` value is the empty YAML
list (`description: []`). -/
def cexC9 : SkillDir :=
  { pathStr := "skills/listy"
    pathExists := true
    pathIsDir := true
    name := "listy".toList
    skillMd := some
      { startsWithMarker := true
        hasClosingMarker := true
        yaml := .ok (.ydict [("name", .str "listy"), ("description", .ylist [])])
        body := "Real body content here.".toList }
    scripts := none
    references := none
    assets := none }

/-- C9 counterexample: the empty YAML list is a non-string `description`
value on which validate does NOT crash: `not []` is true so `.strip()` is
never evaluated, and `'TODO' in []` is a well-typed membership test, so the
pass completes and returns an ordinary report. -/
theorem C9_counterexample :
    SkillValidator.validate cexC9 =
      .ok (false, [msgDescTooShort], [msgBodyShort, msgNoResources]) := rfl

/-- A structurally valid skill whose `description` value is the YAML
integer 42. -/
def exC9 : SkillDir :=
  { pathStr := "skills/numeric"
    pathExists := true
    pathIsDir := true
    name := "numeric".toList
    skillMd := some
      { startsWithMarker := true
        hasClosingMarker := true
        yaml := .ok (.ydict [("name", .str "numeric"), ("description", .int 42)])
        body := "Real body content here.".toList }
    scripts := none
    references := none
    assets := none }

theorem C9_nonstring_scalar_description_crashes_witness :
    ∃ e, SkillValidator.validate exC9 = .error e :=
  C9_nonstring_scalar_description_crashes exC9
    { startsWithMarker := true
      hasClosingMarker := true
      yaml := .ok (.ydict [("name", .str "numeric"), ("description", .int 42)])
      body := "Real body content here.".toList }
    [("name", .str "numeric"), ("description", .int 42)]
    (.str "numeric") (.int 42)
    rfl rfl rfl rfl rfl rfl rfl rfl rfl

/-- C3: the archive written by `package` holds, as its entry set, exactly
the regular files strictly under the skill directory, each keyed by its
path relative to the skill root with its exact byte content — so extraction
reproduces the source files file-for-file and byte-for-byte (entries model
the lossless deflate storage).  The hypothesis records the claim's
precondition that the directory validated with zero errors; `package` never
consults it. -/
theorem C3_archive_entries_roundtrip (s : SkillDir) (w : List String)
    (_hv : SkillValidator.validate s = .ok (true, [], w))
    (fs : List FsEntry) (root : List String) (rel : List String) (c : List Nat) :
    (rel, c) ∈ archiveEntries root fs ↔
      ∃ e, e ∈ fs ∧ e.isFile = true ∧ e.path = root ++ rel ∧
        e.content = c ∧ rel ≠ [] := by
  unfold archiveEntries underRoot relToRoot
  constructor
  · intro h
    rcases List.mem_map.mp h with ⟨e, he, hmap⟩
    rcases List.mem_filter.mp he with ⟨he2, hf⟩
    rcases List.mem_filter.mp he2 with ⟨hin, hcond⟩
    rcases Bool.and_eq_true_iff.mp hcond with ⟨hpre, hlen⟩
    rcases List.isPrefixOf_iff_prefix.mp hpre with ⟨t, ht⟩
    have hrel : rel = t := by
      have hdrop : e.path.drop root.length = t := by
        rw [← ht]
        exact List.drop_left root t
      have := (Prod.mk.injEq _ _ _ _).mp hmap
      rw [← this.1, hdrop]
    subst hrel
    have hcon : e.content = c := ((Prod.mk.injEq _ _ _ _).mp hmap).2
    refine ⟨e, hin, hf, ht.symm, hcon, ?_⟩
    intro hnil
    subst hnil
    rw [← ht] at hlen
    simp at hlen
  · rintro ⟨e, hin, hf, hpath, hcon, hne⟩
    apply List.mem_map.mpr
    refine ⟨e, ?_, ?_⟩
    · apply List.mem_filter.mpr
      refine ⟨List.mem_filter.mpr ⟨hin, ?_⟩, hf⟩
      apply Bool.and_eq_true_iff.mpr
      constructor
      · exact List.isPrefixOf_iff_prefix.mpr ⟨rel, hpath.symm⟩
      · rw [hpath]
        simp only [List.length_append, decide_eq_true_eq]
        have := List.length_pos.mpr hne
        omega
    · rw [hpath, hcon, List.drop_left root rel]

/-- A fully valid skill directory (zero errors). -/
def exC3 : SkillDir :=
  { pathStr := "skills/valid-skill"
    pathExists := true
    pathIsDir := true
    name := "valid-skill".toList
    skillMd := some
      { startsWithMarker := true
        hasClosingMarker := true
        yaml := .ok (.ydict [("name", .str "valid-skill"),
          ("description", .str "A description that is long enough to pass.")])
        body := "Real body content here.".toList }
    scripts := some [⟨"run.py", "scripts/run.py"⟩]
    references := none
    assets := none }

theorem C3_archive_entries_roundtrip_witness :
    (["SKILL.md"], [1, 2, 3]) ∈
        archiveEntries ["home", "skills", "valid-skill"]
          [⟨["home", "skills", "valid-skill", "SKILL.md"], true, [1, 2, 3]⟩,
            ⟨["home", "skills", "valid-skill", "scripts"], false, []⟩,
            ⟨["home", "skills", "valid-skill", "scripts", "run.py"], true, [4, 5]⟩] ↔
      ∃ e, e ∈ [(⟨["home", "skills", "valid-skill", "SKILL.md"], true, [1, 2, 3]⟩ : FsEntry),
            ⟨["home", "skills", "valid-skill", "scripts"], false, []⟩,
            ⟨["home", "skills", "valid-skill", "scripts", "run.py"], true, [4, 5]⟩] ∧
          e.isFile = true ∧
          e.path = ["home", "skills", "valid-skill"] ++ ["SKILL.md"] ∧
          e.content = [1, 2, 3] ∧ (["SKILL.md"] : List String) ≠ [] :=
  C3_archive_entries_roundtrip exC3 [msgBodyShort] (by rfl) _ _ _ _

theorem findArchive_overwrite (l : List (PyPath × List (List String × List Nat)))
    (p : PyPath) (x : List (List String × List Nat)) :
    findArchive ((l.filter (fun a => !(a.1 = p : Bool))) ++ [(p, x)]) p = some x := by
  induction l with
  | nil => simp [findArchive]
  | cons a rest ih =>
    rcases a with ⟨q, e⟩
    by_cases hq : q = p
    · simpa [hq] using ih
    · simpa [findArchive, hq] using ih

/-- C8 amended: `package` creates the output directory (with parents) if
absent, writes the archive at `output_dir / (skill_name + '.skill')`
replacing any pre-existing archive at that path (mode `'w'` truncates), and
returns exactly that path — which is absolute precisely when `output_dir`
is absolute, not unconditionally. -/
theorem C8_package_path_mkdir_overwrite (fs : List FsEntry)
    (skillPath outDir : PyPath) (st : PkgFS) (hout : outDir.comps ≠ []) :
    (SkillPackager.package fs skillPath outDir st).2 =
        outDir.child (skillPath.comps.getLastD "" ++ ".skill") ∧
      (SkillPackager.package fs skillPath outDir st).2.absolute =
        outDir.absolute ∧
      outDir ∈ (SkillPackager.package fs skillPath outDir st).1.dirs ∧
      findArchive (SkillPackager.package fs skillPath outDir st).1.archives
          (SkillPackager.package fs skillPath outDir st).2 =
        some (archiveEntries skillPath.comps fs) := by
  refine ⟨rfl, rfl, ?_, ?_⟩
  · apply List.mem_append_right
    unfold mkdirParents
    apply List.mem_map.mpr
    have hpos : 0 < outDir.comps.length := List.length_pos.mpr hout
    refine ⟨outDir.comps.length - 1, ?_, ?_⟩
    · rw [List.mem_range]
      omega
    · have heq : outDir.comps.length - 1 + 1 = outDir.comps.length := by omega
      rw [heq, List.take_length]
  · exact findArchive_overwrite st.archives _ _

/-- C8 counterexample: with a relative output directory the returned
package path is relative, not absolute — the archive path is
`output_dir / (name + '.skill')` verbatim, so its absoluteness is inherited
from `output_dir`. -/
theorem C8_counterexample :
    (SkillPackager.package [] ⟨true, ["home", "skills", "foo"]⟩
        ⟨false, ["out"]⟩ ⟨[], []⟩).2 =
      ⟨false, ["out", "foo.skill"]⟩ := rfl

theorem C8_package_path_mkdir_overwrite_witness :
    (SkillPackager.package
          [⟨["home", "skills", "foo", "SKILL.md"], true, [7]⟩]
          ⟨true, ["home", "skills", "foo"]⟩ ⟨true, ["home", "dist"]⟩
          ⟨[], [(⟨true, ["home", "dist", "foo.skill"]⟩, [(["stale"], [0])])]⟩).2 =
        PyPath.child ⟨true, ["home", "dist"]⟩
          ((["home", "skills", "foo"] : List String).getLastD "" ++ ".skill") ∧
      (SkillPackager.package
          [⟨["home", "skills", "foo", "SKILL.md"], true, [7]⟩]
          ⟨true, ["home", "skills", "foo"]⟩ ⟨true, ["home", "dist"]⟩
          ⟨[], [(⟨true, ["home", "dist", "foo.skill"]⟩, [(["stale"], [0])])]⟩).2.absolute =
        (⟨true, ["home", "dist"]⟩ : PyPath).absolute ∧
      (⟨true, ["home", "dist"]⟩ : PyPath) ∈
        (SkillPackager.package
          [⟨["home", "skills", "foo", "SKILL.md"], true, [7]⟩]
          ⟨true, ["home", "skills", "foo"]⟩ ⟨true, ["home", "dist"]⟩
          ⟨[], [(⟨true, ["home", "dist", "foo.skill"]⟩, [(["stale"], [0])])]⟩).1.dirs ∧
      findArchive
          (SkillPackager.package
            [⟨["home", "skills", "foo", "SKILL.md"], true, [7]⟩]
            ⟨true, ["home", "skills", "foo"]⟩ ⟨true, ["home", "dist"]⟩
            ⟨[], [(⟨true, ["home", "dist", "foo.skill"]⟩, [(["stale"], [0])])]⟩).1.archives
          (SkillPackager.package
            [⟨["home", "skills", "foo", "SKILL.md"], true, [7]⟩]
            ⟨true, ["home", "skills", "foo"]⟩ ⟨true, ["home", "dist"]⟩
            ⟨[], [(⟨true, ["home", "dist", "foo.skill"]⟩, [(["stale"], [0])])]⟩).2 =
        some (archiveEntries ["home", "skills", "foo"]
          [⟨["home", "skills", "foo", "SKILL.md"], true, [7]⟩]) :=
  C8_package_path_mkdir_overwrite
    [⟨["home", "skills", "foo", "SKILL.md"], true, [7]⟩]
    ⟨true, ["home", "skills", "foo"]⟩ ⟨true, ["home", "dist"]⟩
    ⟨[], [(⟨true, ["home", "dist", "foo.skill"]⟩, [(["stale"], [0])])]⟩
    (by decide)

theorem splitFirstAt_cons (sep : List Char) (c : Char) (rest : List Char) :
    splitFirstAt sep (c :: rest) =
      if sep.isPrefixOf (c :: rest) then
        some ([], (c :: rest).drop sep.length)
      else
        match splitFirstAt sep rest with
        | some (a, b) => some (c :: a, b)
        | none => none := rfl

theorem pySplitList_succ (sep : List Char) (n : Nat) (s : List Char) :
    pySplitList sep (n + 1) s =
      match splitFirstAt sep s with
      | none => [s]
      | some (a, b) => a :: pySplitList sep n b := rfl

theorem dashes_isPrefixOf_eq (l : List Char) :
    dashes.isPrefixOf l =
      (match l with
        | x :: y :: z :: _ => x == '-' && y == '-' && z == '-'
        | _ => false) := by
  rcases l with _ | ⟨x, _ | ⟨y, _ | ⟨z, t⟩⟩⟩ <;>
    simp [dashes, List.isPrefixOf, Bool.and_assoc, Bool.beq_comm]

theorem splitFirstAt_none_cons (c : Char) (rest : List Char)
    (h : splitFirstAt dashes (c :: rest) = none) :
    dashes.isPrefixOf (c :: rest) = false ∧
      splitFirstAt dashes rest = none := by
  rw [splitFirstAt_cons] at h
  by_cases hp : dashes.isPrefixOf (c :: rest) = true
  · rw [if_pos hp] at h
    exact absurd h (by simp)
  · rw [if_neg hp] at h
    refine ⟨eq_false_of_ne_true hp, ?_⟩
    rcases hr : splitFirstAt dashes rest with _ | ⟨a, b⟩
    · rfl
    · rw [hr] at h
      exact absurd h (by simp)

/-- Straddling occurrences of `---` across a concatenation boundary must
use the last character of the left part and the first character of the
right part; if either is not a dash and neither side contains `---`, the
concatenation contains no `---`. -/
theorem noTriple_append (u v : List Char)
    (hu : splitFirstAt dashes u = none) (hv : splitFirstAt dashes v = none)
    (hb : u.getLast? ≠ some '-' ∨ v.head? ≠ some '-') :
    splitFirstAt dashes (u ++ v) = none := by
  induction u with
  | nil => simpa using hv
  | cons c u' ih =>
    obtain ⟨hp, hu'⟩ := splitFirstAt_none_cons c u' hu
    have hnext : splitFirstAt dashes (u' ++ v) = none := by
      apply ih hu'
      rcases u' with _ | ⟨x, u''⟩
      · exact Or.inl (by simp)
      · rcases hb with hb | hb
        · exact Or.inl (by simpa [List.getLast?_cons_cons] using hb)
        · exact Or.inr hb
    rw [List.cons_append, splitFirstAt_cons]
    have hpmain : dashes.isPrefixOf (c :: (u' ++ v)) = false := by
      rw [dashes_isPrefixOf_eq]
      rw [dashes_isPrefixOf_eq] at hp
      rcases u' with _ | ⟨x, _ | ⟨y, u''⟩⟩
      · rcases v with _ | ⟨w, _ | ⟨w', v''⟩⟩
        · simp
        · simp
        · simp only [List.nil_append, List.cons_append]
          by_cases hc : c = '-'
          · subst hc
            rcases hb with hb | hb
            · simp at hb
            · by_cases hw : w = '-'
              · subst hw
                simp at hb
              · simp [hw]
          · simp [hc]
      · rcases v with _ | ⟨w, v''⟩
        · simp
        · simp only [List.cons_append, List.nil_append]
          by_cases hc : c = '-'
          · by_cases hx : x = '-'
            · subst hc
              subst hx
              rcases hb with hb | hb
              · simp at hb
              · by_cases hw : w = '-'
                · subst hw
                  simp at hb
                · simp [hw]
            · simp [hx]
          · simp [hc]
      · simpa using hp
    rw [if_neg (by simp [hpmain]), hnext]

theorem splitFirstAt_boundary (b : List Char) :
    ∀ a : List Char, splitFirstAt dashes (a ++ ['-', '-']) = none →
      splitFirstAt dashes (a ++ (dashes ++ b)) = some (a, b) := by
  intro a
  induction a with
  | nil =>
    intro _
    rw [List.nil_append, show dashes ++ b = '-' :: ('-' :: ('-' :: b)) from rfl,
      splitFirstAt_cons]
    rw [if_pos (by simp [dashes, List.isPrefixOf])]
    simp [dashes]
  | cons c a' ih =>
    intro H
    obtain ⟨hp, H'⟩ := splitFirstAt_none_cons c (a' ++ ['-', '-'])
      (by simpa using H)
    have hrec := ih H'
    rw [List.cons_append, splitFirstAt_cons]
    have hpmain : dashes.isPrefixOf (c :: (a' ++ (dashes ++ b))) = false := by
      rw [dashes_isPrefixOf_eq]
      rw [dashes_isPrefixOf_eq] at hp
      rcases a' with _ | ⟨x, _ | ⟨y, a''⟩⟩
      · simpa [dashes] using hp
      · simpa [dashes] using hp
      · simpa using hp
    rw [if_neg (by simp [hpmain]), hrec]

theorem pySplitList_template (H R : List Char)
    (hH : splitFirstAt dashes (H ++ ['-', '-']) = none) :
    pySplitList dashes 2 (dashes ++ (H ++ (dashes ++ R))) = [[], H, R] := by
  have h1 : splitFirstAt dashes (dashes ++ (H ++ (dashes ++ R))) =
      some ([], H ++ (dashes ++ R)) := by
    have h0 := splitFirstAt_boundary (H ++ (dashes ++ R)) [] (by rfl)
    simpa using h0
  have h2 : splitFirstAt dashes (H ++ (dashes ++ R)) = some (H, R) :=
    splitFirstAt_boundary R H hH
  rw [show (2 : Nat) = 1 + 1 from rfl, pySplitList_succ, h1]
  show ([] : List Char) :: pySplitList dashes 1 (H ++ (dashes ++ R)) = [[], H, R]
  rw [show (1 : Nat) = 0 + 1 from rfl, pySplitList_succ, h2]
  rfl

theorem accepted_no_space (name : List Char)
    (h : skillNameAccepted name = true) : name.contains ' ' = false := by
  by_contra hc
  have hmem : ' ' ∈ name := by
    rcases hcc : name.contains ' ' with _ | _
    · exact absurd hcc hc
    · simpa using hcc
  simp only [skillNameAccepted, Bool.and_eq_true, List.all_eq_true] at h
  have hin : (' ' : Char) ∈ name.filter (fun c => !(c == '-') && !(c == '_')) :=
    List.mem_filter.mpr ⟨hmem, by decide⟩
  have := h.2 ' ' hin
  exact absurd this (by decide)

theorem pyStrip_not_empty (l : List Char) (c : Char) (hc : c ∈ l)
    (hw : c.isWhitespace = false) : (pyStrip l).isEmpty = false := by
  unfold pyStrip
  rw [List.isEmpty_eq_false]
  intro hnil
  have h1 : c ∈ l.dropWhile Char.isWhitespace := by
    rcases List.mem_append.mp
        (by rw [List.takeWhile_append_dropWhile]; exact hc :
          c ∈ l.takeWhile Char.isWhitespace ++ l.dropWhile Char.isWhitespace)
      with h | h
    · exact absurd (List.mem_takeWhile_imp h) (by simp [hw])
    · exact h
  have h2 : c ∈ (l.dropWhile Char.isWhitespace).reverse := by
    simpa using h1
  have h3 : (l.dropWhile Char.isWhitespace).reverse.dropWhile Char.isWhitespace = [] := by
    have := congrArg List.reverse hnil
    simpa using this
  have h4 := List.dropWhile_eq_nil_iff.mp h3 c h2
  simp [hw] at h4

set_option maxRecDepth 4000 in
theorem initHeader_noTriple (name : List Char)
    (hname : splitFirstAt dashes name = none) :
    splitFirstAt dashes (initHeaderChars name ++ ['-', '-']) = none := by
  have hB2 : splitFirstAt dashes
      ("\ndescription: ".toList ++ (initDescription.toList ++ (['\n'] ++ ['-', '-']))) =
        none := by rfl
  have hnameB2 : splitFirstAt dashes
      (name ++ ("\ndescription: ".toList ++ (initDescription.toList ++ (['\n'] ++ ['-', '-'])))) =
        none :=
    noTriple_append name _ hname hB2 (Or.inr (by decide))
  have hA : splitFirstAt dashes
      ("\nname: ".toList ++ (name ++ ("\ndescription: ".toList ++
        (initDescription.toList ++ (['\n'] ++ ['-', '-']))))) = none :=
    noTriple_append _ _ (by rfl) hnameB2 (Or.inl (by decide))
  have hre : initHeaderChars name ++ ['-', '-'] =
      "\nname: ".toList ++ (name ++ ("\ndescription: ".toList ++
        (initDescription.toList ++ (['\n'] ++ ['-', '-'])))) := by
    simp [initHeaderChars, List.append_assoc]
  rw [hre]
  exact hA

set_option maxRecDepth 8000 in
/-- C1 amended: for every name the initializer accepts that contains no
`---` substring (three consecutive hyphens would break the frontmatter
split), validate on the freshly created skill reports exactly ONE error —
the placeholder description contains `TODO`, which `validate` treats as an
error, not a warning — while everything else (TODO-laden body, example
files) only produces warnings. -/
theorem C1_init_validate_single_todo_error (name : List Char) (v : YVal)
    (hacc : skillNameAccepted name = true)
    (hname : splitFirstAt dashes name = none) :
    ∃ w, SkillValidator.validate (initSkillDir name v) =
      .ok (false, [msgDescTODO], w) := by
  have hH := initHeader_noTriple name hname
  have hsh : skillTemplateChars name =
      dashes ++ (initHeaderChars name ++ (dashes ++ initRestChars name)) := by
    simp [skillTemplateChars, List.append_assoc]
  have hsplit : pySplitList dashes 2 (skillTemplateChars name) =
      [[], initHeaderChars name, initRestChars name] := by
    rw [hsh]
    exact pySplitList_template (initHeaderChars name) (initRestChars name) hH
  have hstart : (initSkillMdDoc name v).startsWithMarker = true := by
    simp only [initSkillMdDoc]
    apply List.isPrefixOf_iff_prefix.mpr
    rw [hsh]
    exact List.prefix_append _ _
  have hclose : (initSkillMdDoc name v).hasClosingMarker = true := by
    simp only [initSkillMdDoc]
    rw [hsplit]
    simp
  have hbody : (initSkillMdDoc name v).body = initRestChars name := by
    simp only [initSkillMdDoc]
    rw [hsplit]
    rfl
  have hmain := validate_full_pass (initSkillDir name v) (initSkillMdDoc name v)
    [("name", v), ("description", .str initDescription)] v initDescription
    rfl rfl rfl hstart hclose rfl rfl rfl
  have hdescE : descErrorsOfStr initDescription = [msgDescTODO] := by rfl
  have hbodyE : bodyErrors (initSkillMdDoc name v).body = [] := by
    rw [hbody]
    have hne : (pyStrip (initRestChars name)).isEmpty = false := by
      apply pyStrip_not_empty (initRestChars name) '#'
      · unfold initRestChars
        exact List.mem_append_left (skillTitle name ++ templateBodyTail.toList)
          (show '#' ∈ "\n\n# ".toList by decide)
      · decide
    simp [bodyErrors, hne]
  have hnameE : namingErrors name = [] := by
    have hns : ' ' ∉ name := by simpa using accepted_no_space name hacc
    simp [namingErrors, hns]
  have hE : fullPassErrors (initSkillMdDoc name v).body
      (initSkillDir name v).name initDescription = [msgDescTODO] := by
    unfold fullPassErrors
    rw [hdescE, hbodyE, show (initSkillDir name v).name = name from rfl, hnameE]
    simp
  refine ⟨fullPassWarnings (initSkillDir name v)
    [("name", v), ("description", .str initDescription)] v
    (initSkillMdDoc name v).body, ?_⟩
  rw [hmain, hE]
  rfl

set_option maxRecDepth 100000 in
/-- C1 counterexample: running the initializer on the accepted name
`my-skill` and validating the created directory immediately yields a
NON-empty error list — the template description contains `TODO`, which the
validator records as an error, not a warning. -/
theorem C1_counterexample :
    SkillValidator.validate (initSkillDir "my-skill".toList (.str "my-skill")) =
        .ok (false, [msgDescTODO],
          [msgBodyTODO, msgExampleFile "scripts/example.py",
            msgExampleFile "references/example.md",
            msgExampleFile "assets/example-template.md"]) ∧
      [msgDescTODO] ≠ ([] : List String) :=
  ⟨rfl, by decide⟩

set_option maxRecDepth 100000 in
theorem C1_init_validate_single_todo_error_witness :
    skillNameAccepted "my-skill".toList = true ∧
      splitFirstAt dashes "my-skill".toList = none ∧
      ∃ w, SkillValidator.validate
          (initSkillDir "my-skill".toList (.str "my-skill")) =
        .ok (false, [msgDescTODO], w) :=
  ⟨by decide, by decide,
    C1_init_validate_single_todo_error "my-skill".toList (.str "my-skill")
      (by decide) (by decide)⟩
